import Mathlib

/-!
Shallow embedding of the Hangman game engine of src/src/game.py.

Python strings are modelled as List Char; str.lower and str.isalpha are
modelled per character with Char.toLower and Char.isAlpha (the system is
scoped to ASCII letters, over which they agree with Python). Python int is
Int, so life counts can go negative exactly as in the source. Mutation of
the Game object is modelled by explicit state passing: each operation
returns the new state together with its Python return value.
-/

/-- The MaskingMode enum of game.py. -/
inductive MaskingMode where
  | WORD
  | PHRASE
  deriving DecidableEq

/-- The immutable GuessResult dataclass of game.py. -/
structure GuessResult where
  outcome : String
  revealed : List Char
  remaining_lives : Int
  won : Bool
  lost : Bool
  deriving DecidableEq

/-- The fields of the Game class of game.py. -/
structure Game where
  target_raw : List Char
  target : List Char
  masking_mode : MaskingMode
  lives : Int
  valid_chars : List Char
  guessed : List Char
  reveal_state : List Char
  deriving DecidableEq

/-- The default value of the valid_chars parameter of Game.__init__. -/
def defaultValidChars : List Char := ("abcdefghijklmnopqrstuvwxyz").toList

/-- Game._mask: replace every alphabetic character with the placeholder and
leave every other character untouched. -/
def maskText (text : List Char) : List Char :=
  text.map (fun ch => if ch.isAlpha then '_' else ch)

/-- Game.__init__: rejects an empty target, lowercases the target, stores the
configuration and builds the initial reveal state. In this typed embedding the
target argument is always a string, so the Python isinstance branch of the
validation cannot fire; the empty check is the reachable one. -/
def Game.init (target : List Char) (lives : Int) (masking_mode : MaskingMode)
    (valid_chars : List Char) : Except String Game :=
  if target = [] then
    Except.error ("Target must be a non-empty string")
  else
    let t := target.map Char.toLower
    Except.ok
      { target_raw := target
        target := t
        masking_mode := masking_mode
        lives := lives
        valid_chars := valid_chars
        guessed := []
        reveal_state := maskText t }

/-- Game._is_won: true unless some alphabetic target position is still the
placeholder in the reveal state. -/
def Game.is_won (g : Game) : Bool :=
  (g.target.zip g.reveal_state).all (fun p => !(p.1.isAlpha && p.2 == '_'))

/-- Game._is_lost: true when lives are exhausted. -/
def Game.is_lost (g : Game) : Bool :=
  decide (g.lives ≤ 0)

/-- The position scan of Game._apply_reveal over the target and the reveal
list: every position whose target character equals the guessed letter and
whose reveal character is still the placeholder is replaced by the letter and
counted. Positions of the reveal list beyond the target are untouched. -/
def revealZip (letter : Char) : List Char → List Char → List Char × Nat
  | t :: ts, r :: rs =>
    let rest := revealZip letter ts rs
    if t == letter && r == '_' then (letter :: rest.1, rest.2 + 1)
    else (r :: rest.1, rest.2)
  | [], rs => (rs, 0)
  | _ :: _, [] => ([], 0)

/-- Game._apply_reveal: return 0 and leave the state alone unless the letter
is a single character; otherwise lowercase it, rewrite the reveal state and
return the number of newly revealed positions. -/
def Game.apply_reveal (g : Game) (letter : List Char) : Game × Nat :=
  match letter with
  | [c] =>
    let l := c.toLower
    let res := revealZip l g.target g.reveal_state
    ({ g with reveal_state := res.1 }, res.2)
  | _ => (g, 0)

/-- Python str.strip of the guess: drop whitespace from both ends. -/
def pyStrip (s : List Char) : List Char :=
  ((s.dropWhile Char.isWhitespace).reverse.dropWhile Char.isWhitespace).reverse

/-- The normalization guess.strip().lower() performed by Game.make_guess. -/
def normalizeGuess (s : List Char) : List Char :=
  (pyStrip s).map Char.toLower

/-- Game.make_guess of game.py, branch by branch: timeout on absent input,
then single-character validation against valid_chars, then the repeat check,
then the reveal scan deciding correct versus incorrect. Each branch builds
the GuessResult from the state current at its return site. The source has no
branch producing the outcome quit. -/
def Game.make_guess (g : Game) (guess : Option (List Char)) : Game × GuessResult :=
  match guess with
  | none =>
    let g1 : Game := { g with lives := g.lives - 1 }
    (g1, { outcome := "timeout", revealed := g1.reveal_state,
           remaining_lives := g1.lives, won := g1.is_won, lost := g1.is_lost })
  | some s =>
    match normalizeGuess s with
    | [c] =>
      if c ∈ g.valid_chars then
        if c ∈ g.guessed then
          (g, { outcome := "repeat", revealed := g.reveal_state,
                remaining_lives := g.lives, won := g.is_won, lost := g.is_lost })
        else
          let g1 : Game := { g with guessed := c :: g.guessed }
          let res := g1.apply_reveal [c]
          let g2 := res.1
          if res.2 > 0 then
            (g2, { outcome := "correct", revealed := g2.reveal_state,
                   remaining_lives := g2.lives, won := g2.is_won, lost := g2.is_lost })
          else
            let g3 : Game := { g2 with lives := g2.lives - 1 }
            (g3, { outcome := "incorrect", revealed := g3.reveal_state,
                   remaining_lives := g3.lives, won := g3.is_won, lost := g3.is_lost })
      else
        (g, { outcome := "invalid", revealed := g.reveal_state,
              remaining_lives := g.lives, won := g.is_won, lost := g.is_lost })
    | _ =>
      (g, { outcome := "invalid", revealed := g.reveal_state,
            remaining_lives := g.lives, won := g.is_won, lost := g.is_lost })

/-- Modelled from the spec: Game.is_finished is called by tests/test_game.py
(test_win_condition, test_lose_condition) and by src/src/ui_cli.py line 243,
but no such method is defined in src/src/game.py. The spec defines it as a
side-effect-free query that is true iff the game is won or lost. -/
def Game.is_finished (g : Game) : Bool :=
  g.is_won || g.is_lost

/-- Feed a sequence of inputs to make_guess, keeping the state. -/
def playAll (g : Game) (inputs : List (Option (List Char))) : Game :=
  inputs.foldl (fun st i => (st.make_guess i).1) g

/-- The reveal state built at construction: placeholder at alphabetic
positions, the target character elsewhere. -/
def maskInitOk (g : Game) : Bool :=
  (g.target.zip g.reveal_state).all
    (fun p => if p.1.isAlpha then p.2 == '_' else p.2 == p.1)

/-- Every non-alphabetic target position shows the target character itself in
the reveal state. -/
def nonAlphaAgrees (g : Game) : Bool :=
  (g.target.zip g.reveal_state).all (fun p => p.1.isAlpha || p.2 == p.1)

/-- The state produced by Game.init of the target test with 3 lives. -/
def gTest3 : Game :=
  { target_raw := ("test").toList
    target := ("test").toList
    masking_mode := MaskingMode.WORD
    lives := 3
    valid_chars := defaultValidChars
    guessed := []
    reveal_state := ("____").toList }

/-- The state produced by Game.init of the target python with 1 life. -/
def gPython1 : Game :=
  { target_raw := ("python").toList
    target := ("python").toList
    masking_mode := MaskingMode.WORD
    lives := 1
    valid_chars := defaultValidChars
    guessed := []
    reveal_state := ("______").toList }

/-- The state produced by Game.init of the target hangman with 3 lives. -/
def gHangman : Game :=
  { target_raw := ("hangman").toList
    target := ("hangman").toList
    masking_mode := MaskingMode.WORD
    lives := 3
    valid_chars := defaultValidChars
    guessed := []
    reveal_state := ("_______").toList }

/-- The state produced by Game.init of the phrase target with 3 lives. -/
def gClean : Game :=
  { target_raw := ("clean code!").toList
    target := ("clean code!").toList
    masking_mode := MaskingMode.PHRASE
    lives := 3
    valid_chars := defaultValidChars
    guessed := []
    reveal_state := ("_____ ____!").toList }

theorem revealZip_cons_cons (l t r : Char) (ts rs : List Char) :
    revealZip l (t :: ts) (r :: rs) =
      if t == l && r == '_' then (l :: (revealZip l ts rs).1, (revealZip l ts rs).2 + 1)
      else (r :: (revealZip l ts rs).1, (revealZip l ts rs).2) := by
  rfl

theorem revealZip_fst_length (l : Char) (ts rs : List Char) :
    (revealZip l ts rs).1.length = rs.length := by
  induction ts generalizing rs with
  | nil => simp [revealZip]
  | cons t ts ih =>
    cases rs with
    | nil => simp [revealZip]
    | cons r rs =>
      rw [revealZip_cons_cons]
      split <;> simp [ih]

theorem revealZip_agrees (l : Char) (ts rs : List Char)
    (h : ((ts.zip rs).all fun p => p.1.isAlpha || p.2 == p.1) = true) :
    ((ts.zip (revealZip l ts rs).1).all fun p => p.1.isAlpha || p.2 == p.1) = true := by
  induction ts generalizing rs with
  | nil => simp
  | cons t ts ih =>
    cases rs with
    | nil => simp [revealZip]
    | cons r rs =>
      rw [revealZip_cons_cons]
      simp only [List.zip_cons_cons, List.all_cons, Bool.and_eq_true] at h
      obtain ⟨h1, h2⟩ := h
      split
      · rename_i hc
        simp only [Bool.and_eq_true, beq_iff_eq] at hc
        simp only [hc.1, List.zip_cons_cons, List.all_cons, Bool.and_eq_true]
        exact ⟨by simp, ih rs h2⟩
      · simp only [List.zip_cons_cons, List.all_cons, Bool.and_eq_true]
        exact ⟨h1, ih rs h2⟩

theorem make_guess_target (g : Game) (i : Option (List Char)) :
    ((g.make_guess i).1).target = g.target := by
  rcases i with _ | s
  · rfl
  · rcases h : normalizeGuess s with _ | ⟨c, _ | ⟨d, ds⟩⟩ <;>
      simp only [Game.make_guess, h, Game.apply_reveal] <;>
      (try split) <;> (try split) <;> (try split) <;> rfl

theorem make_guess_valid_chars (g : Game) (i : Option (List Char)) :
    ((g.make_guess i).1).valid_chars = g.valid_chars := by
  rcases i with _ | s
  · rfl
  · rcases h : normalizeGuess s with _ | ⟨c, _ | ⟨d, ds⟩⟩ <;>
      simp only [Game.make_guess, h, Game.apply_reveal] <;>
      (try split) <;> (try split) <;> (try split) <;> rfl

theorem make_guess_lives_le (g : Game) (i : Option (List Char)) :
    ((g.make_guess i).1).lives ≤ g.lives := by
  rcases i with _ | s
  · simp only [Game.make_guess]
    omega
  · rcases h : normalizeGuess s with _ | ⟨c, _ | ⟨d, ds⟩⟩ <;>
      simp only [Game.make_guess, h, Game.apply_reveal] <;>
      (try split) <;> (try split) <;> (try split) <;> simp <;> omega

theorem make_guess_guessed_mono (g : Game) (i : Option (List Char)) (c : Char)
    (hc : c ∈ g.guessed) : c ∈ ((g.make_guess i).1).guessed := by
  rcases i with _ | s
  · exact hc
  · rcases h : normalizeGuess s with _ | ⟨d, _ | ⟨e, es⟩⟩ <;>
      simp only [Game.make_guess, h, Game.apply_reveal] <;>
      (try split) <;> (try split) <;> (try split) <;> simp [hc]

theorem make_guess_reveal_length (g : Game) (i : Option (List Char)) :
    ((g.make_guess i).1).reveal_state.length = g.reveal_state.length := by
  rcases i with _ | s
  · rfl
  · rcases h : normalizeGuess s with _ | ⟨c, _ | ⟨d, ds⟩⟩ <;>
      simp only [Game.make_guess, h, Game.apply_reveal] <;>
      (try split) <;> (try split) <;> (try split) <;> simp [revealZip_fst_length]

theorem make_guess_nonAlphaAgrees (g : Game) (i : Option (List Char))
    (h : nonAlphaAgrees g = true) : nonAlphaAgrees ((g.make_guess i).1) = true := by
  rcases i with _ | s
  · exact h
  · rcases hn : normalizeGuess s with _ | ⟨c, _ | ⟨d, ds⟩⟩ <;>
      simp only [Game.make_guess, hn, Game.apply_reveal] <;>
      (try split) <;> (try split) <;> (try split) <;>
      simp only [nonAlphaAgrees] at h ⊢ <;>
      first
        | exact h
        | exact revealZip_agrees _ _ _ h

example : maskText (("clean code!").toList) = ("_____ ____!").toList := by decide

example :
    Game.init (("Python").toList) 3 MaskingMode.WORD defaultValidChars
      = Except.ok
          { target_raw := ("Python").toList
            target := ("python").toList
            masking_mode := MaskingMode.WORD
            lives := 3
            valid_chars := defaultValidChars
            guessed := []
            reveal_state := ("______").toList } := by rfl

/-- C1: the spec says an input whose trimmed, lowercased form is the word quit
is classified as quit before the single-character validation. The source of
Game.make_guess has no quit branch: the normalized string quit has length 4,
fails the single-character validation and is classified invalid (the state is
left unchanged). This contradicts the GuessResult docstring, the caller in
ui_cli.py and the test test_quit_command_handling. -/
theorem C1_quit_classified_invalid :
    Game.init (("test").toList) 3 MaskingMode.WORD defaultValidChars = Except.ok gTest3 ∧
    normalizeGuess (("quit").toList) = ("quit").toList ∧
    (gTest3.make_guess (some (("quit").toList))).2.outcome = "invalid" ∧
    (gTest3.make_guess (some (("quit").toList))).2.outcome ≠ "quit" ∧
    (gTest3.make_guess (some (("quit").toList))).1 = gTest3 := by
  exact ⟨by rfl, by decide, by decide, by decide, by decide⟩

/-- C2 counterexample: remaining lives have no floor at zero. Starting from
the game on python with one life, one timeout brings the lives to 0, and a
further timeout mutates them again, down to -1, although the game was already
terminal. This refutes both the floor-0 part and the no-further-mutation part
of the claim. -/
theorem C2_no_floor_counterexample :
    Game.init (("python").toList) 1 MaskingMode.WORD defaultValidChars = Except.ok gPython1 ∧
    (playAll gPython1 [none]).lives = 0 ∧
    (playAll gPython1 [none]).is_lost = true ∧
    (playAll gPython1 [none, none]).lives = -1 := by
  exact ⟨by rfl, by decide, by decide, by decide⟩

/-- C2 amended: across every sequence of make_guess calls the remaining
lives are monotonically non-increasing; but there is no floor at 0, and
reaching 0 does not stop further decrements (see the counterexample). -/
theorem C2_lives_monotone (g : Game) (inputs : List (Option (List Char))) :
    (playAll g inputs).lives ≤ g.lives := by
  induction inputs generalizing g with
  | nil => exact le_rfl
  | cons i is ih =>
    exact le_trans (ih ((g.make_guess i).1)) (make_guess_lives_le g i)

/-- C4: make_guess is a total function of the state and the optional input
(the embedding returns normally on every input), and the outcome of the
result is always one of the six closed labels. -/
theorem C4_outcome_closed (g : Game) (i : Option (List Char)) :
    (g.make_guess i).2.outcome ∈
      ["correct", "incorrect", "timeout", "repeat", "invalid", "quit"] := by
  rcases i with _ | s
  · simp [Game.make_guess]
  · rcases h : normalizeGuess s with _ | ⟨c, _ | ⟨d, ds⟩⟩ <;>
      simp only [Game.make_guess, h, Game.apply_reveal] <;>
      (try split) <;> (try split) <;> (try split) <;> simp

/-- C5: an absent input decrements the lives by exactly one, is classified as
timeout, and changes nothing else (reveal state, guessed set, target and
alphabet are untouched); in particular on the python target with one life the
result is timeout with 0 remaining lives and lost true. -/
theorem C5_timeout_behaviour :
    (∀ g : Game,
      (g.make_guess none).2.outcome = "timeout" ∧
      ((g.make_guess none).1).lives = g.lives - 1 ∧
      (g.make_guess none).2.remaining_lives = g.lives - 1 ∧
      ((g.make_guess none).1).reveal_state = g.reveal_state ∧
      ((g.make_guess none).1).guessed = g.guessed ∧
      ((g.make_guess none).1).target = g.target ∧
      ((g.make_guess none).1).valid_chars = g.valid_chars) ∧
    (Game.init (("python").toList) 1 MaskingMode.WORD defaultValidChars).map
        (fun g => ((g.make_guess none).2.outcome, (g.make_guess none).2.remaining_lives,
                   (g.make_guess none).2.lost))
      = Except.ok ("timeout", 0, true) := by
  constructor
  · intro g
    exact ⟨rfl, rfl, rfl, rfl, rfl, rfl, rfl⟩
  · rfl

/-- C9: construction fails with the invalid-argument error exactly when the
target is empty (the not-a-string leg of the Python check cannot fire in a
typed embedding over strings); on a non-empty target it succeeds and returns
the fully built state with the configured lives; on the target Python with 3
lives the reveal is six placeholders and the lives are 3. -/
theorem C9_init_validation :
    (∀ (t : List Char) (l : Int) (m : MaskingMode) (vc : List Char),
      Game.init t l m vc = Except.error ("Target must be a non-empty string") ↔ t = []) ∧
    (∀ (t : List Char) (l : Int) (m : MaskingMode) (vc : List Char), t ≠ [] →
      Game.init t l m vc = Except.ok
        { target_raw := t
          target := t.map Char.toLower
          masking_mode := m
          lives := l
          valid_chars := vc
          guessed := []
          reveal_state := maskText (t.map Char.toLower) }) ∧
    (Game.init (("Python").toList) 3 MaskingMode.WORD defaultValidChars).map
      (fun g => (g.reveal_state, g.lives)) = Except.ok ((("______").toList), 3) := by
  refine ⟨fun t l m vc => ?_, fun t l m vc ht => ?_, by rfl⟩
  · constructor
    · intro h
      by_contra hne
      simp [Game.init, hne] at h
    · intro h
      simp [Game.init, h]
  · simp [Game.init, ht]

/-- C9 witness: a concrete non-empty target on which the construction part of
the validation theorem is instantiated. -/
theorem C9_init_validation_witness :
    ("Python").toList ≠ [] ∧
    Game.init (("Python").toList) 3 MaskingMode.WORD defaultValidChars = Except.ok
      { target_raw := ("Python").toList
        target := (("Python").toList).map Char.toLower
        masking_mode := MaskingMode.WORD
        lives := 3
        valid_chars := defaultValidChars
        guessed := []
        reveal_state := maskText ((("Python").toList).map Char.toLower) } := by
  exact ⟨by decide,
    C9_init_validation.2.1 (("Python").toList) 3 MaskingMode.WORD defaultValidChars (by decide)⟩

/-- C10: a reachable state in which one make_guess call reports won and lost
simultaneously true: on the target ab with one life, a wrong guess first
exhausts the lives, and the guess revealing the last letter is classified
correct while both flags, recomputed fresh from the state, come out true. -/
theorem C10_won_and_lost_together :
    (Game.init (("ab").toList) 1 MaskingMode.WORD defaultValidChars).map
      (fun g =>
        let g1 := (g.make_guess (some (("z").toList))).1
        let g2 := (g1.make_guess (some (("a").toList))).1
        let p := g2.make_guess (some (("b").toList))
        (g1.lives, p.2.outcome, p.2.won, p.2.lost))
      = Except.ok (0, "correct", true, true) := by
  rfl

theorem maskText_initOk (tl : List Char) :
    ((tl.zip (maskText tl)).all fun p => if p.1.isAlpha then p.2 == '_' else p.2 == p.1)
      = true := by
  induction tl with
  | nil => rfl
  | cons c cs ih =>
    simp only [maskText, List.map_cons, List.zip_cons_cons, List.all_cons, Bool.and_eq_true]
    constructor
    · by_cases h : c.isAlpha <;> simp [h]
    · simpa [maskText] using ih

theorem maskInitOk_imp_nonAlpha (g : Game) (h : maskInitOk g = true) :
    nonAlphaAgrees g = true := by
  simp only [maskInitOk, List.all_eq_true] at h
  simp only [nonAlphaAgrees, List.all_eq_true]
  intro p hp
  have hpp := h p hp
  by_cases ha : p.1.isAlpha
  · simp [ha]
  · rw [if_neg ha] at hpp
    simp [hpp]

theorem playAll_nonAlphaAgrees (inputs : List (Option (List Char))) (g : Game)
    (h : nonAlphaAgrees g = true) : nonAlphaAgrees (playAll g inputs) = true := by
  induction inputs generalizing g with
  | nil => exact h
  | cons i is ih => exact ih ((g.make_guess i).1) (make_guess_nonAlphaAgrees g i h)

theorem playAll_target (inputs : List (Option (List Char))) (g : Game) :
    (playAll g inputs).target = g.target := by
  induction inputs generalizing g with
  | nil => rfl
  | cons i is ih =>
    calc (playAll ((g.make_guess i).1) is).target
        = ((g.make_guess i).1).target := ih ((g.make_guess i).1)
      _ = g.target := make_guess_target g i

theorem playAll_reveal_length (inputs : List (Option (List Char))) (g : Game) :
    (playAll g inputs).reveal_state.length = g.reveal_state.length := by
  induction inputs generalizing g with
  | nil => rfl
  | cons i is ih =>
    calc (playAll ((g.make_guess i).1) is).reveal_state.length
        = ((g.make_guess i).1).reveal_state.length := ih ((g.make_guess i).1)
      _ = g.reveal_state.length := make_guess_reveal_length g i

/-- C3: the Game class of game.py exposes no is_finished method at all; only
the private queries exist, while tests/test_game.py (test_win_condition,
test_lose_condition) and src/src/ui_cli.py line 243 call game.is_finished(),
which in Python raises AttributeError. The definition Game.is_finished of
this file is modelled from the spec; this theorem shows the modelled query is
true iff the game is won or lost, and evaluates it, side-effect-free, on the
two states the failing tests build. -/
theorem C3_is_finished_spec_model :
    (∀ g : Game, g.is_finished = true ↔ (g.is_won = true ∨ g.is_lost = true)) ∧
    (Game.init (("aa").toList) 5 MaskingMode.WORD defaultValidChars).map
        (fun g => (((g.make_guess (some (("a").toList))).1).is_finished,
                   ((g.make_guess (some (("a").toList))).1).reveal_state))
      = Except.ok (true, ("aa").toList) ∧
    (Game.init (("a").toList) 1 MaskingMode.WORD defaultValidChars).map
        (fun g => (((g.make_guess (some (("b").toList))).1).is_finished,
                   ((g.make_guess (some (("b").toList))).1).lives))
      = Except.ok (true, 0) := by
  refine ⟨fun g => ?_, by rfl, by rfl⟩
  simp [Game.is_finished]

/-- C6: the first submission of a valid, not yet guessed letter is classified
correct or incorrect and records the letter as guessed; any submission of a
letter already recorded, in any state, is classified repeat and leaves the
whole state (lives, mask, guessed set) unchanged; the guessed set membership
and the alphabet survive every later call, so every later submission of the
same letter keeps being classified repeat. -/
theorem C6_repeat_idempotence (g : Game) (s : List Char) (c : Char)
    (hs : normalizeGuess s = [c]) (hv : c ∈ g.valid_chars) (hg : c ∉ g.guessed) :
    ((g.make_guess (some s)).2.outcome = "correct" ∨
      (g.make_guess (some s)).2.outcome = "incorrect") ∧
    c ∈ ((g.make_guess (some s)).1).guessed ∧
    (∀ (g2 : Game) (s2 : List Char), normalizeGuess s2 = [c] → c ∈ g2.valid_chars →
      c ∈ g2.guessed →
      g2.make_guess (some s2) =
        (g2, { outcome := "repeat", revealed := g2.reveal_state,
               remaining_lives := g2.lives, won := g2.is_won, lost := g2.is_lost })) ∧
    (∀ (g2 : Game) (i : Option (List Char)), c ∈ g2.guessed →
      c ∈ ((g2.make_guess i).1).guessed) ∧
    (∀ (g2 : Game) (i : Option (List Char)),
      ((g2.make_guess i).1).valid_chars = g2.valid_chars) := by
  refine ⟨?_, ?_, ?_, ?_, ?_⟩
  · simp only [Game.make_guess, hs, Game.apply_reveal]
    rw [if_pos hv, if_neg hg]
    split
    · left; rfl
    · right; rfl
  · simp only [Game.make_guess, hs, Game.apply_reveal]
    rw [if_pos hv, if_neg hg]
    split <;> simp
  · intro g2 s2 h1 h2 h3
    simp only [Game.make_guess, h1]
    rw [if_pos h2, if_pos h3]
  · intro g2 i hc
    exact make_guess_guessed_mono g2 i c hc
  · intro g2 i
    exact make_guess_valid_chars g2 i

/-- C6 witness: the scenario of test_repeat_guess_marked_repeat_no_life_loss,
the letter a on the target hangman: the first submission is correct, and the
second submission of the same letter returns repeat and the unchanged state. -/
theorem C6_repeat_idempotence_witness :
    (normalizeGuess (("a").toList) = ['a'] ∧ 'a' ∈ gHangman.valid_chars ∧
      'a' ∉ gHangman.guessed) ∧
    ((gHangman.make_guess (some (("a").toList))).2.outcome = "correct" ∨
      (gHangman.make_guess (some (("a").toList))).2.outcome = "incorrect") ∧
    ((gHangman.make_guess (some (("a").toList))).1).make_guess (some (("a").toList)) =
      ((gHangman.make_guess (some (("a").toList))).1,
        { outcome := "repeat",
          revealed := ((gHangman.make_guess (some (("a").toList))).1).reveal_state,
          remaining_lives := ((gHangman.make_guess (some (("a").toList))).1).lives,
          won := ((gHangman.make_guess (some (("a").toList))).1).is_won,
          lost := ((gHangman.make_guess (some (("a").toList))).1).is_lost }) := by
  have h := C6_repeat_idempotence gHangman (("a").toList) 'a' (by decide) (by decide) (by decide)
  exact ⟨⟨by decide, by decide, by decide⟩, h.1,
    h.2.2.1 ((gHangman.make_guess (some (("a").toList))).1) (("a").toList)
      (by decide) (by decide) (by decide)⟩

/-- C7: on any constructed game, every alphabetic target position starts as
the placeholder and every non-alphabetic target position (space, punctuation,
digit) shows the target character itself at construction; and after every
sequence of make_guess calls the non-alphabetic positions still show the
target character, unchanged. -/
theorem C7_nonalpha_positions_fixed (t : List Char) (l : Int) (m : MaskingMode)
    (vc : List Char) (g : Game) (h : Game.init t l m vc = Except.ok g) :
    maskInitOk g = true ∧
    ∀ inputs : List (Option (List Char)), nonAlphaAgrees (playAll g inputs) = true := by
  simp only [Game.init] at h
  split at h
  · exact absurd h (by simp)
  · rw [Except.ok.injEq] at h
    subst h
    have hm : maskInitOk
        { target_raw := t
          target := t.map Char.toLower
          masking_mode := m
          lives := l
          valid_chars := vc
          guessed := []
          reveal_state := maskText (t.map Char.toLower) } = true :=
      maskText_initOk (t.map Char.toLower)
    exact ⟨hm, fun inputs =>
      playAll_nonAlphaAgrees inputs _ (maskInitOk_imp_nonAlpha _ hm)⟩

/-- C7 witness: the phrase target of test_initial_masking_phrase, with a
correct guess, a timeout and an incorrect guess played on it. -/
theorem C7_nonalpha_positions_fixed_witness :
    Game.init (("clean code!").toList) 3 MaskingMode.PHRASE defaultValidChars
      = Except.ok gClean ∧
    maskInitOk gClean = true ∧
    nonAlphaAgrees
      (playAll gClean [some (("c").toList), none, some (("x").toList)]) = true := by
  have h := C7_nonalpha_positions_fixed (("clean code!").toList) 3 MaskingMode.PHRASE
    defaultValidChars gClean (by rfl)
  exact ⟨by rfl, h.1, h.2 [some (("c").toList), none, some (("x").toList)]⟩

/-- C8: on any constructed game, after every sequence of make_guess calls the
reveal state has the same length as the normalized target (which itself never
changes). -/
theorem C8_reveal_length_invariant (t : List Char) (l : Int) (m : MaskingMode)
    (vc : List Char) (g : Game) (h : Game.init t l m vc = Except.ok g) :
    ∀ inputs : List (Option (List Char)),
      (playAll g inputs).reveal_state.length = (playAll g inputs).target.length ∧
      (playAll g inputs).target = g.target := by
  intro inputs
  refine ⟨?_, playAll_target inputs g⟩
  rw [playAll_reveal_length, playAll_target]
  simp only [Game.init] at h
  split at h
  · exact absurd h (by simp)
  · rw [Except.ok.injEq] at h
    subst h
    simp [maskText]

/-- C8 witness: the target hangman with a correct guess and a timeout played
on it. -/
theorem C8_reveal_length_invariant_witness :
    Game.init (("hangman").toList) 3 MaskingMode.WORD defaultValidChars
      = Except.ok gHangman ∧
    (playAll gHangman [some (("a").toList), none]).reveal_state.length =
      (playAll gHangman [some (("a").toList), none]).target.length := by
  have h := C8_reveal_length_invariant (("hangman").toList) 3 MaskingMode.WORD
    defaultValidChars gHangman (by rfl)
  exact ⟨by rfl, (h [some (("a").toList), none]).1⟩
